import Mathlib

/-!
Verification development for the OpenRouter blueprint template repository.

The Rust sources embedded here (shallowly) are:
  - `open-router-blueprint-template-lib/src/llm/mod.rs` (error taxonomy,
    client capability types, the `LlmClientExt` downcast helper),
  - `open-router-blueprint-template-lib/src/llm/models.rs` (request/response
    value types),
  - `open-router-blueprint-template-lib/src/llm/streaming.rs` (stream chunk
    types and the two stream collectors),
  - `open-router-blueprint-template-lib/src/llm/local_llm.rs` (the local stub
    client and its metrics bookkeeping),
  - `open-router-blueprint-template-lib/src/load_balancer/mod.rs` (the node
    registry and the four selection strategies),
  - `blueprints/ollama-blueprint/src/lib.rs` (the Ollama client's
    `embeddings` implementation, used as a second backend variant).

Conventions used throughout:
  - Rust `Vec`/slices become `List`; `HashMap` fields that no modelled code
    ever reads become association lists.
  - Machine integers (`u32`, `u64`, `usize`) become `Nat`; wrapping addition
    is written `% 2 ^ 32` where the source's release-mode `+=` wraps, and
    `saturating_sub` is `Nat` truncated subtraction.
  - Fallible Rust functions returning `Result<T, LlmError>` become
    `Except LlmError T`; a possible panic (`unwrap` on `None`) is modelled as
    `Except Unit`.
  - Async functions are pure state transformers: the mutable state they touch
    is passed in and returned explicitly, and ambient effects (clock, UUID
    generator, request duration) become explicit parameters.
  - `f32`/`f64` values are modelled by `F32` below: an idealized IEEE float
    (exact rational arithmetic, no rounding or signed zero) that keeps the
    three features the claims depend on — NaN propagation, infinities, and
    the partiality of `PartialOrd::partial_cmp`.
-/

/-- Idealized model of an IEEE `f32`/`f64` value: NaN, a signed infinity
(`inf true` is negative infinity), or a finite value represented exactly as a
rational. Rounding and signed zero are not modelled; the claims settled here
depend only on NaN propagation and on which pairs are comparable. -/
inductive F32 where
  | nan : F32
  | inf : Bool → F32
  | fin : ℚ → F32
deriving DecidableEq

namespace F32

/-- Negation; NaN propagates, infinities flip sign. -/
def neg : F32 → F32
  | nan => nan
  | inf s => inf (!s)
  | fin q => fin (-q)

/-- Addition; NaN propagates, and opposite infinities produce NaN. -/
def add : F32 → F32 → F32
  | nan, _ => nan
  | inf _, nan => nan
  | fin _, nan => nan
  | inf s, inf t => if s = t then inf s else nan
  | inf s, fin _ => inf s
  | fin _, inf t => inf t
  | fin a, fin b => fin (a + b)

/-- Subtraction, defined as addition of the negation (IEEE `x - y` agrees
with `x + (-y)` for every operand class). -/
def sub (x y : F32) : F32 := x.add y.neg

/-- Multiplication; NaN propagates, and `0 × ∞` produces NaN. -/
def mul : F32 → F32 → F32
  | nan, _ => nan
  | inf _, nan => nan
  | fin _, nan => nan
  | inf s, inf t => inf (xor s t)
  | inf s, fin q => if q = 0 then nan else inf (xor s (decide (q < 0)))
  | fin q, inf t => if q = 0 then nan else inf (xor t (decide (q < 0)))
  | fin a, fin b => fin (a * b)

/-- Division; NaN propagates, `∞ / ∞` and `0 / 0` produce NaN. The sign of a
zero quotient is not tracked (no modelled code distinguishes `±0`). -/
def div : F32 → F32 → F32
  | nan, _ => nan
  | inf _, nan => nan
  | fin _, nan => nan
  | inf _, inf _ => nan
  | inf s, fin q => inf (xor s (decide (q < 0)))
  | fin _, inf _ => fin 0
  | fin a, fin b =>
      if b = 0 then (if a = 0 then nan else inf (decide (a < 0))) else fin (a / b)

/-- Model of `PartialOrd::partial_cmp` on floats: `none` exactly when either
operand is NaN, otherwise the order with `-∞` below every finite value and
`+∞` above. -/
def pcmp : F32 → F32 → Option Ordering
  | nan, _ => none
  | inf _, nan => none
  | fin _, nan => none
  | inf s, inf t =>
      if s = t then some Ordering.eq
      else if s then some Ordering.lt else some Ordering.gt
  | inf s, fin _ => if s then some Ordering.lt else some Ordering.gt
  | fin _, inf t => if t then some Ordering.gt else some Ordering.lt
  | fin a, fin b =>
      if a < b then some Ordering.lt
      else if b < a then some Ordering.gt else some Ordering.eq

/-- A value is finite when it is neither NaN nor an infinity. -/
def isFinite : F32 → Bool
  | fin _ => true
  | _ => false

/-- Embedding of an unsigned-integer-to-float cast (`as f32`); exact in this
idealized model. -/
def ofNat (n : ℕ) : F32 := fin n

theorem pcmp_isSome_of_isFinite {x y : F32} (hx : x.isFinite = true)
    (hy : y.isFinite = true) : (x.pcmp y).isSome = true := by
  cases x <;> cases y <;> simp_all [isFinite, pcmp]
  split <;> [skip; split] <;> simp_all

theorem add_fin_fin (a b : ℚ) : (fin a).add (fin b) = fin (a + b) := rfl

theorem isFinite_add {x y : F32} (hx : x.isFinite = true)
    (hy : y.isFinite = true) : (x.add y).isFinite = true := by
  cases x <;> cases y <;> simp_all [isFinite, add]

theorem isFinite_sub {x y : F32} (hx : x.isFinite = true)
    (hy : y.isFinite = true) : (x.sub y).isFinite = true := by
  cases x <;> cases y <;> simp_all [isFinite, sub, add, neg]

theorem isFinite_mul {x y : F32} (hx : x.isFinite = true)
    (hy : y.isFinite = true) : (x.mul y).isFinite = true := by
  cases x <;> cases y <;> simp_all [isFinite, mul]

end F32

/-- Decidable equality for `Except`, so that concrete runs of the embedded
fallible operations can be checked by `decide`. -/
instance {ε α : Type} [DecidableEq ε] [DecidableEq α] : DecidableEq (Except ε α) :=
  fun x y =>
    match x, y with
    | Except.error a, Except.error b =>
        if h : a = b then Decidable.isTrue (by rw [h])
        else Decidable.isFalse (fun hh => h (Except.error.inj hh))
    | Except.ok a, Except.ok b =>
        if h : a = b then Decidable.isTrue (by rw [h])
        else Decidable.isFalse (fun hh => h (Except.ok.inj hh))
    | Except.error _, Except.ok _ => Decidable.isFalse (fun hh => Except.noConfusion hh)
    | Except.ok _, Except.error _ => Decidable.isFalse (fun hh => Except.noConfusion hh)

/-- Stand-in for `serde_json::Value` in request fields: abstracted as its
serialized text, since no modelled code inspects these values. -/
abbrev JsonValue := String

/-- `ModelInfo` from `llm/mod.rs`: description of one model a node serves.
The `parameters` HashMap becomes an association list. -/
structure ModelInfo where
  id : String
  name : String
  max_context_length : ℕ
  supports_chat : Bool
  supports_text : Bool
  supports_embeddings : Bool
  parameters : List (String × String)
deriving DecidableEq

/-- `LlmCapabilities` from `llm/mod.rs`. -/
structure LlmCapabilities where
  supports_streaming : Bool
  max_concurrent_requests : ℕ
  supports_batching : Bool
  features : List (String × Bool)
deriving DecidableEq

/-- `NodeMetrics` from `llm/mod.rs`. The two utilization fields are `f32` in
the source and are modelled by `F32`; the counters are `u32`/`u64` modelled
by `Nat`. -/
structure NodeMetrics where
  cpu_utilization : F32
  memory_utilization : F32
  gpu_utilization : Option F32
  requests_per_minute : ℕ
  average_response_time_ms : ℕ
  active_requests : ℕ
  last_updated : ℕ
deriving DecidableEq

/-- `LlmError` from `llm/mod.rs`. The enum declared there has exactly six
variants (`RequestFailed`, `ModelNotSupported`, `InvalidRequest`,
`ClientNotInitialized`, `Timeout`, `Internal`). A seventh constructor,
`NotImplemented`, is included here because the blueprint clients
(`blueprints/ollama-blueprint/src/lib.rs`, `blueprints/vllm-blueprint/src/lib.rs`)
construct `LlmError::NotImplemented(..)` and the design's error taxonomy (§7)
lists it — even though the enum declaration in `llm/mod.rs` does not define
it, so those uses cannot compile against this library as committed. The
`Timeout` payload (`std::time::Duration`) is modelled as whole milliseconds. -/
inductive LlmError where
  | RequestFailed : String → LlmError
  | ModelNotSupported : String → LlmError
  | InvalidRequest : String → LlmError
  | ClientNotInitialized : LlmError
  | Timeout : ℕ → LlmError
  | Internal : String → LlmError
  | NotImplemented : String → LlmError
deriving DecidableEq

/-- `ChatMessage` from `llm/models.rs`. -/
structure ChatMessage where
  role : String
  content : String
  name : Option String
deriving DecidableEq

/-- `ChatCompletionRequest` from `llm/models.rs`. `f32` sampling parameters
are modelled by `F32`. -/
structure ChatCompletionRequest where
  model : String
  messages : List ChatMessage
  max_tokens : Option ℕ
  temperature : Option F32
  top_p : Option F32
  stream : Option Bool
  additional_params : List (String × JsonValue)
deriving DecidableEq

/-- `UsageInfo` from `llm/models.rs`. -/
structure UsageInfo where
  prompt_tokens : ℕ
  completion_tokens : ℕ
  total_tokens : ℕ
deriving DecidableEq

/-- `ChatCompletionChoice` from `llm/models.rs`. -/
structure ChatCompletionChoice where
  index : ℕ
  message : ChatMessage
  finish_reason : Option String
deriving DecidableEq

/-- `ChatCompletionResponse` from `llm/models.rs`. -/
structure ChatCompletionResponse where
  id : String
  object : String
  created : ℕ
  model : String
  choices : List ChatCompletionChoice
  usage : Option UsageInfo
deriving DecidableEq

/-- `TextCompletionRequest` from `llm/models.rs`. -/
structure TextCompletionRequest where
  model : String
  prompt : String
  max_tokens : Option ℕ
  temperature : Option F32
  top_p : Option F32
  stream : Option Bool
  additional_params : List (String × JsonValue)
deriving DecidableEq

/-- `TextCompletionChoice` from `llm/models.rs`. -/
structure TextCompletionChoice where
  index : ℕ
  text : String
  finish_reason : Option String
deriving DecidableEq

/-- `TextCompletionResponse` from `llm/models.rs`. -/
structure TextCompletionResponse where
  id : String
  object : String
  created : ℕ
  model : String
  choices : List TextCompletionChoice
  usage : Option UsageInfo
deriving DecidableEq

/-- `EmbeddingRequest` from `llm/models.rs`. -/
structure EmbeddingRequest where
  model : String
  input : List String
  additional_params : List (String × JsonValue)
deriving DecidableEq

/-- `EmbeddingData` from `llm/models.rs`. -/
structure EmbeddingData where
  index : ℕ
  embedding : List F32
deriving DecidableEq

/-- `EmbeddingResponse` from `llm/models.rs`. -/
structure EmbeddingResponse where
  object : String
  model : String
  data : List EmbeddingData
  usage : Option UsageInfo
deriving DecidableEq

/-- `ChatMessageDelta` from `llm/streaming.rs`. -/
structure ChatMessageDelta where
  role : Option String
  content : Option String
deriving DecidableEq

/-- `ChatCompletionStreamChoice` from `llm/streaming.rs`. -/
structure ChatCompletionStreamChoice where
  index : ℕ
  delta : ChatMessageDelta
  finish_reason : Option String
deriving DecidableEq

/-- `ChatCompletionChunk` from `llm/streaming.rs`. -/
structure ChatCompletionChunk where
  id : String
  object : String
  created : ℕ
  model : String
  choices : List ChatCompletionStreamChoice
deriving DecidableEq

/-- `TextCompletionStreamChoice` from `llm/streaming.rs`. -/
structure TextCompletionStreamChoice where
  index : ℕ
  text : String
  finish_reason : Option String
deriving DecidableEq

/-- `TextCompletionChunk` from `llm/streaming.rs`. -/
structure TextCompletionChunk where
  id : String
  object : String
  created : ℕ
  model : String
  choices : List TextCompletionStreamChoice
deriving DecidableEq

/-- Model of `iter_mut().find(p)` followed by an in-place mutation: rewrites
the first list entry satisfying `p` (and only that entry) by `f`. -/
def update_first {α : Type} (p : α → Bool) (f : α → α) : List α → List α
  | [] => []
  | x :: xs => if p x then f x :: xs else x :: update_first p f xs

/-- Accumulator entry used by `collect_chat_completion_stream`:
`(index, role, content buffer, finish_reason)` as in the source's tuple. -/
abbrev ChatAcc := ℕ × String × String × Option String

/-- Body of the per-choice work in the second loop of
`collect_chat_completion_stream` (`streaming.rs` lines 150–168): append the
delta content to the entry with the matching index, then overwrite the stored
finish reason when the incoming choice carries one. -/
def collect_chat_apply_choice (choices : List ChatAcc)
    (choice : ChatCompletionStreamChoice) : List ChatAcc :=
  let choices :=
    match choice.delta.content with
    | some content =>
        update_first (fun e => e.1 == choice.index)
          (fun e => (e.1, e.2.1, e.2.2.1 ++ content, e.2.2.2)) choices
    | none => choices
  match choice.finish_reason with
  | some _ =>
      update_first (fun e => e.1 == choice.index)
        (fun e => (e.1, e.2.1, e.2.2.1, choice.finish_reason)) choices
  | none => choices

/-- The `while let Some(chunk_result) = stream.next()` loop of
`collect_chat_completion_stream`: folds every remaining chunk into the
accumulator, propagating a chunk-level error (`chunk_result?`). -/
def collect_chat_loop (choices : List ChatAcc) :
    List (Except LlmError ChatCompletionChunk) → Except LlmError (List ChatAcc)
  | [] => Except.ok choices
  | chunk_result :: rest =>
      match chunk_result with
      | Except.error e => Except.error e
      | Except.ok chunk =>
          collect_chat_loop (chunk.choices.foldl collect_chat_apply_choice choices) rest

/-- `collect_chat_completion_stream` from `llm/streaming.rs` (lines 122–198).
The stream is modelled as the list of items it yields, and the wall clock read
for the response's `created` field is the explicit `now` parameter. The first
chunk seeds the accumulator with each choice's index, role (defaulting to
`"assistant"`), an empty content buffer, and its finish reason — the first
chunk's `delta.content` is not consulted, exactly as in the source. -/
def collect_chat_completion_stream (now : ℕ)
    (stream : List (Except LlmError ChatCompletionChunk)) :
    Except LlmError ChatCompletionResponse :=
  match stream with
  | [] => Except.error (LlmError.RequestFailed ("Empty stream"))
  | first_chunk_result :: rest =>
    match first_chunk_result with
    | Except.error e => Except.error e
    | Except.ok first_chunk =>
        let choices : List ChatAcc := first_chunk.choices.map (fun choice =>
          (choice.index, choice.delta.role.getD ("assistant"), "", choice.finish_reason))
        match collect_chat_loop choices rest with
        | Except.error e => Except.error e
        | Except.ok choices =>
            Except.ok
              { id := "stream-collected"
                object := "chat.completion"
                created := now
                model := "unknown"
                choices := choices.map (fun e =>
                  { index := e.1
                    message := { role := e.2.1, content := e.2.2.1, name := none }
                    finish_reason := e.2.2.2 })
                usage := none }

/-- Accumulator entry used by `collect_text_completion_stream`:
`(index, text buffer, finish_reason)`. -/
abbrev TextAcc := ℕ × String × Option String

/-- Body of the per-choice work in the second loop of
`collect_text_completion_stream` (`streaming.rs` lines 228–242). -/
def collect_text_apply_choice (choices : List TextAcc)
    (choice : TextCompletionStreamChoice) : List TextAcc :=
  let choices :=
    update_first (fun e => e.1 == choice.index)
      (fun e => (e.1, e.2.1 ++ choice.text, e.2.2)) choices
  match choice.finish_reason with
  | some _ =>
      update_first (fun e => e.1 == choice.index)
        (fun e => (e.1, e.2.1, choice.finish_reason)) choices
  | none => choices

/-- The remaining-chunks loop of `collect_text_completion_stream`. -/
def collect_text_loop (choices : List TextAcc) :
    List (Except LlmError TextCompletionChunk) → Except LlmError (List TextAcc)
  | [] => Except.ok choices
  | chunk_result :: rest =>
      match chunk_result with
      | Except.error e => Except.error e
      | Except.ok chunk =>
          collect_text_loop (chunk.choices.foldl collect_text_apply_choice choices) rest

/-- `collect_text_completion_stream` from `llm/streaming.rs` (lines 201–266).
Unlike the chat collector, the first chunk's `text` is kept. -/
def collect_text_completion_stream (now : ℕ)
    (stream : List (Except LlmError TextCompletionChunk)) :
    Except LlmError TextCompletionResponse :=
  match stream with
  | [] => Except.error (LlmError.RequestFailed ("Empty stream"))
  | first_chunk_result :: rest =>
    match first_chunk_result with
    | Except.error e => Except.error e
    | Except.ok first_chunk =>
        let choices : List TextAcc := first_chunk.choices.map (fun choice =>
          (choice.index, choice.text, choice.finish_reason))
        match collect_text_loop choices rest with
        | Except.error e => Except.error e
        | Except.ok choices =>
            Except.ok
              { id := "stream-collected"
                object := "text_completion"
                created := now
                model := "unknown"
                choices := choices.map (fun e =>
                  { index := e.1, text := e.2.1, finish_reason := e.2.2 })
                usage := none }

/-- `LocalLlmConfig` from `llm/local_llm.rs`. -/
structure LocalLlmConfig where
  api_url : String
  timeout_seconds : ℕ
  max_concurrent_requests : ℕ
  models : List ModelInfo
  additional_params : List (String × String)
deriving DecidableEq

/-- `LocalLlmConfig::default()` from `llm/local_llm.rs` (lines 40–81). -/
def LocalLlmConfig.default : LocalLlmConfig :=
  { api_url := "http://localhost:8000"
    timeout_seconds := 60
    max_concurrent_requests := 5
    models :=
      [ { id := "gpt-3.5-turbo", name := "GPT-3.5 Turbo", max_context_length := 4096,
          supports_chat := true, supports_text := true, supports_embeddings := false,
          parameters := [] },
        { id := "text-davinci-003", name := "Text Davinci 003", max_context_length := 4096,
          supports_chat := false, supports_text := true, supports_embeddings := false,
          parameters := [] },
        { id := "text-embedding-ada-002", name := "Text Embedding Ada 002",
          max_context_length := 8191, supports_chat := false, supports_text := false,
          supports_embeddings := true, parameters := [] } ]
    additional_params := [] }

/-- `LocalLlmClient::record_request_start` (`local_llm.rs` lines 136–139):
increments `active_requests` (a `u32`, wrapping in release mode). -/
def record_request_start (metrics : NodeMetrics) : NodeMetrics :=
  { metrics with active_requests := (metrics.active_requests + 1) % 2 ^ 32 }

/-- `LocalLlmClient::record_request_end` (`local_llm.rs` lines 142–154):
saturating decrement of `active_requests`, exponential-moving-average update
of `average_response_time_ms` with `ALPHA = 0.1` (the `f64` arithmetic is
idealized as exact rationals and the `as u64` cast is truncation), and a
wrapping increment of `requests_per_minute`. -/
def record_request_end (metrics : NodeMetrics) (duration_ms : ℕ) : NodeMetrics :=
  let metrics := { metrics with active_requests := metrics.active_requests - 1 }
  let old_avg : ℚ := metrics.average_response_time_ms
  let new_avg : ℚ := old_avg * (1 - 1 / 10) + (duration_ms : ℚ) * (1 / 10)
  let metrics := { metrics with average_response_time_ms := new_avg.floor.toNat }
  { metrics with requests_per_minute := (metrics.requests_per_minute + 1) % 2 ^ 32 }

/-- `LocalLlmClient::chat_completion` (`local_llm.rs` lines 179–210) as a pure
state transformer on the client's `NodeMetrics`. Ambient effects are explicit
parameters: `uuid` is the freshly generated response id, `now` the wall-clock
read for `created`, and `duration_ms` the measured request duration fed to
`record_request_end`. Returns the mock response together with the updated
metrics; when the model is absent from `config.models` it fails with
`ModelNotSupported` before touching the metrics. -/
def LocalLlmClient.chat_completion (config : LocalLlmConfig) (metrics : NodeMetrics)
    (uuid : String) (now : ℕ) (duration_ms : ℕ) (request : ChatCompletionRequest) :
    Except LlmError ChatCompletionResponse × NodeMetrics :=
  if ¬ config.models.any (fun m => m.id == request.model) then
    (Except.error (LlmError.ModelNotSupported request.model), metrics)
  else
    let metrics := record_request_start metrics
    let response : ChatCompletionResponse :=
      { id := uuid
        object := "chat.completion"
        created := now
        model := request.model
        choices := []
        usage := none }
    let metrics := record_request_end metrics duration_ms
    (Except.ok response, metrics)

/-- `LocalLlmClient::text_completion` (`local_llm.rs` lines 212–243), modelled
exactly as `LocalLlmClient.chat_completion`. -/
def LocalLlmClient.text_completion (config : LocalLlmConfig) (metrics : NodeMetrics)
    (uuid : String) (now : ℕ) (duration_ms : ℕ) (request : TextCompletionRequest) :
    Except LlmError TextCompletionResponse × NodeMetrics :=
  if ¬ config.models.any (fun m => m.id == request.model) then
    (Except.error (LlmError.ModelNotSupported request.model), metrics)
  else
    let metrics := record_request_start metrics
    let response : TextCompletionResponse :=
      { id := uuid
        object := "text_completion"
        created := now
        model := request.model
        choices := []
        usage := none }
    let metrics := record_request_end metrics duration_ms
    (Except.ok response, metrics)

/-- `LocalLlmClient::embeddings` (`local_llm.rs` lines 245–271): same model
check, then a mock success (`object = "list"`, empty `data`) for any
configured model — the matching model's `supports_embeddings` flag is never
consulted, and no `NotImplemented` error is ever produced. -/
def LocalLlmClient.embeddings (config : LocalLlmConfig) (metrics : NodeMetrics)
    (duration_ms : ℕ) (request : EmbeddingRequest) :
    Except LlmError EmbeddingResponse × NodeMetrics :=
  if ¬ config.models.any (fun m => m.id == request.model) then
    (Except.error (LlmError.ModelNotSupported request.model), metrics)
  else
    let metrics := record_request_start metrics
    let response : EmbeddingResponse :=
      { object := "list"
        model := request.model
        data := []
        usage := none }
    let metrics := record_request_end metrics duration_ms
    (Except.ok response, metrics)

/-- `LocalLlmClient::get_supported_models` (`local_llm.rs` lines 159–161). -/
def LocalLlmClient.get_supported_models (config : LocalLlmConfig) : List ModelInfo :=
  config.models

/-- `OllamaLlmClient` from `blueprints/ollama-blueprint/src/lib.rs` (the
fields that the modelled methods read). -/
structure OllamaLlmClient where
  api_url : String
  model : String
deriving DecidableEq

/-- `OllamaLlmClient::get_supported_models` (`ollama-blueprint/src/lib.rs`
lines 46–100): probes the Ollama `/api/tags` endpoint to check whether the
configured model exists; the probe's outcome is the explicit `valid_model`
parameter. On success it advertises exactly the configured model (chat and
text, no embeddings); on failure it returns the empty list. -/
def OllamaLlmClient.get_supported_models (c : OllamaLlmClient)
    (valid_model : Bool) : List ModelInfo :=
  if valid_model then
    [ { id := c.model, name := c.model, max_context_length := 4096,
        supports_chat := true, supports_text := true, supports_embeddings := false,
        parameters := [] } ]
  else []

/-- `OllamaLlmClient::embeddings` (`ollama-blueprint/src/lib.rs` lines
345–355): unconditionally fails with `NotImplemented` — the request's model is
never checked against the supported-model list. -/
def OllamaLlmClient.embeddings (_c : OllamaLlmClient) (_request : EmbeddingRequest) :
    Except LlmError EmbeddingResponse :=
  Except.error (LlmError.NotImplemented ("Ollama embeddings not implemented in this example"))

/-- Pure view of an arbitrary `LlmClient` trait object: the two synchronous,
effect-free getters that the downcast helper and the load balancer consult.
Any Rust value implementing the trait projects to this record. -/
structure LlmClientData where
  get_supported_models : List ModelInfo
  get_capabilities : LlmCapabilities
deriving DecidableEq

/-- `LlmClientExt::supports_streaming` (`llm/mod.rs` lines 164–167 and
194–197): just reads the capability flag. -/
def LlmClientExt.supports_streaming (client : LlmClientData) : Bool :=
  client.get_capabilities.supports_streaming

/-- `LlmClientExt::as_streaming` (`llm/mod.rs` lines 169–178 and 199–209),
identical in the blanket impl and the `Arc<dyn LlmClient>` impl: if the
capability flag is off, return `None`; otherwise return the placeholder
`None` ("proper downcasting would require a different approach"). The
never-produced `&dyn StreamingLlmClient` payload is modelled as `Unit`. -/
def LlmClientExt.as_streaming (client : LlmClientData) : Option Unit :=
  if ¬ LlmClientExt.supports_streaming client then none
  else none

/-- `LoadBalancingStrategy` from `load_balancer/mod.rs`. -/
inductive LoadBalancingStrategy where
  | RoundRobin : LoadBalancingStrategy
  | LeastLoaded : LoadBalancingStrategy
  | CapabilityBased : LoadBalancingStrategy
  | LatencyBased : LoadBalancingStrategy
deriving DecidableEq

/-- `LoadBalancerNode` from `load_balancer/mod.rs`; the `Arc<dyn LlmClient>`
is modelled by its pure view `LlmClientData`. -/
structure LoadBalancerNode where
  id : String
  client : LlmClientData
  metrics : NodeMetrics
  active : Bool
deriving DecidableEq

/-- The `LoadBalancer` state from `load_balancer/mod.rs`: the configured
strategy, the node map in its (fixed, for an unmodified map) iteration order,
and the round-robin cursor. -/
structure LoadBalancer where
  strategy : LoadBalancingStrategy
  nodes : List LoadBalancerNode
  round_robin_index : ℕ
deriving DecidableEq

/-- `LoadBalancer::get_active_nodes` (`load_balancer/mod.rs` lines 178–181). -/
def LoadBalancer.get_active_nodes (lb : LoadBalancer) : List LoadBalancerNode :=
  lb.nodes.filter (fun n => n.active)

/-- The active nodes that advertise the requested model: the filtered set that
`select_node_for_model` hands to the configured strategy. -/
def LoadBalancer.qualifying_nodes (lb : LoadBalancer) (model : String) :
    List LoadBalancerNode :=
  lb.get_active_nodes.filter
    (fun n => n.client.get_supported_models.any (fun m => m.id == model))

/-- `LoadBalancer::select_round_robin` (`load_balancer/mod.rs` lines 223–233):
returns `nodes[index % len]` and advances the shared cursor to
`(index + 1) % len`. The pair carries the selected node and the new cursor. -/
def select_round_robin (nodes : List LoadBalancerNode) (index : ℕ) :
    Option LoadBalancerNode × ℕ :=
  if h : nodes.length = 0 then (none, index)
  else
    (some (nodes.get ⟨index % nodes.length, Nat.mod_lt index (Nat.pos_of_ne_zero h)⟩),
      (index + 1) % nodes.length)

/-- One step of the `Iterator::min_by_key` fold: keep the current minimum and
replace it only on a strictly smaller key, so ties go to the first element
encountered — matching the documented Rust semantics. -/
def min_step {α : Type} (key : α → ℕ) (acc : Option α) (x : α) : Option α :=
  match acc with
  | none => some x
  | some y => if key x < key y then some x else some y

/-- Model of `Iterator::min_by_key` as the fold of `min_step`. -/
def min_by_key {α : Type} (key : α → ℕ) (l : List α) : Option α :=
  l.foldl (min_step key) none

/-- `LoadBalancer::select_least_loaded` (`load_balancer/mod.rs` lines
236–244): minimum `active_requests`. -/
def select_least_loaded (nodes : List LoadBalancerNode) : Option LoadBalancerNode :=
  if nodes.length = 0 then none
  else min_by_key (fun n => n.metrics.active_requests) nodes

/-- `LoadBalancer::select_latency_based` (`load_balancer/mod.rs` lines
292–300): minimum `average_response_time_ms`. -/
def select_latency_based (nodes : List LoadBalancerNode) : Option LoadBalancerNode :=
  if nodes.length = 0 then none
  else min_by_key (fun n => n.metrics.average_response_time_ms) nodes

/-- `LoadBalancer::calculate_capability_score` (`load_balancer/mod.rs` lines
274–289), with the source's `f32` arithmetic carried out in the idealized
`F32` model and in the source's evaluation order:
`1.0 + ctx/10000.0 − cpu·0.5 − mem·0.5 − active·0.1`. -/
def calculate_capability_score (node : LoadBalancerNode) (model_info : ModelInfo) : F32 :=
  let score := F32.fin 1
  let score := score.add ((F32.ofNat model_info.max_context_length).div (F32.fin 10000))
  let score := score.sub (node.metrics.cpu_utilization.mul (F32.fin (1 / 2)))
  let score := score.sub (node.metrics.memory_utilization.mul (F32.fin (1 / 2)))
  let score := score.sub ((F32.ofNat node.metrics.active_requests).mul (F32.fin (1 / 10)))
  score

/-- One step of the sort's comparator,
`|(_, score1), (_, score2)| score2.partial_cmp(score1).unwrap()`: comparing
descending by score and panicking (modelled as `Except.error ()`) when the
two scores are incomparable, i.e. when either is NaN. -/
def score_cmp (x y : LoadBalancerNode × F32) : Except Unit Ordering :=
  match F32.pcmp y.2 x.2 with
  | none => Except.error ()
  | some o => Except.ok o

/-- Sorted insertion with a fallible comparator: the panic of an incomparable
pair propagates. Models the comparison sort behind `slice::sort_by`; the
claims below depend only on whether some compared pair panics, never on the
resulting order. -/
def insert_sorted (x : LoadBalancerNode × F32) :
    List (LoadBalancerNode × F32) → Except Unit (List (LoadBalancerNode × F32))
  | [] => Except.ok [x]
  | y :: ys =>
      match score_cmp x y with
      | Except.error e => Except.error e
      | Except.ok Ordering.gt =>
          match insert_sorted x ys with
          | Except.error e => Except.error e
          | Except.ok zs => Except.ok (y :: zs)
      | Except.ok _ => Except.ok (x :: y :: ys)

/-- Insertion sort with the fallible score comparator, modelling
`scored_nodes.sort_by(|(_, s1), (_, s2)| s2.partial_cmp(s1).unwrap())`. -/
def sort_by_score : List (LoadBalancerNode × F32) →
    Except Unit (List (LoadBalancerNode × F32))
  | [] => Except.ok []
  | x :: xs =>
      match sort_by_score xs with
      | Except.error e => Except.error e
      | Except.ok ys => insert_sorted x ys

/-- The `scored_nodes` local of `LoadBalancer::select_capability_based`
(`load_balancer/mod.rs` lines 253–264): every node whose advertised models
contain the requested one, paired with its capability score computed from the
matching `ModelInfo`. -/
def scored_nodes (nodes : List LoadBalancerNode) (model : String) :
    List (LoadBalancerNode × F32) :=
  nodes.filterMap (fun n =>
    (n.client.get_supported_models.find? (fun m => m.id == model)).map
      (fun model_info => (n, calculate_capability_score n model_info)))

/-- `LoadBalancer::select_capability_based` (`load_balancer/mod.rs` lines
247–271): score every node that advertises the model (using the matching
`ModelInfo`), sort descending by score — where the source's
`partial_cmp(..).unwrap()` can panic on NaN scores — and return the
highest-scoring node. -/
def select_capability_based (nodes : List LoadBalancerNode) (model : String) :
    Except Unit (Option LoadBalancerNode) :=
  if nodes.length = 0 then Except.ok none
  else
    match sort_by_score (scored_nodes nodes model) with
    | Except.error e => Except.error e
    | Except.ok sorted => Except.ok (sorted.head?.map (fun p => p.1))

/-- `LoadBalancer::select_node_for_model` (`load_balancer/mod.rs` lines
184–220): filter to active nodes, then to nodes advertising the model
(returning `None` without touching the cursor when either filter empties the
pool), then apply the configured strategy. The result carries the selected
node together with the updated round-robin cursor; the `Except` layer records
the possible panic inside the capability-based sort. The source's
`supporting_nodes` local (active nodes filtered by model support) is the named
`LoadBalancer.qualifying_nodes`. -/
def select_node_for_model (lb : LoadBalancer) (model : String) :
    Except Unit (Option LoadBalancerNode × ℕ) :=
  if lb.get_active_nodes.length = 0 then Except.ok (none, lb.round_robin_index)
  else if (lb.qualifying_nodes model).length = 0 then
    Except.ok (none, lb.round_robin_index)
  else
    match lb.strategy with
    | LoadBalancingStrategy.RoundRobin =>
        Except.ok (select_round_robin (lb.qualifying_nodes model) lb.round_robin_index)
    | LoadBalancingStrategy.LeastLoaded =>
        Except.ok (select_least_loaded (lb.qualifying_nodes model), lb.round_robin_index)
    | LoadBalancingStrategy.CapabilityBased =>
        match select_capability_based (lb.qualifying_nodes model) model with
        | Except.error e => Except.error e
        | Except.ok sel => Except.ok (sel, lb.round_robin_index)
    | LoadBalancingStrategy.LatencyBased =>
        Except.ok (select_latency_based (lb.qualifying_nodes model), lb.round_robin_index)

/-- `k` consecutive calls to `select_node_for_model` against an otherwise
unchanged registry: each call writes its updated round-robin cursor back into
the state, exactly as the shared `RwLock<usize>` cursor behaves when no node
is added, removed, or updated between the calls. A panic (impossible outside
the capability-based strategy) stops the run. -/
def run_select (lb : LoadBalancer) (model : String) :
    ℕ → List (Option LoadBalancerNode) × LoadBalancer
  | 0 => ([], lb)
  | k + 1 =>
      match select_node_for_model lb model with
      | Except.error _ => ([], lb)
      | Except.ok (sel, idx) =>
          let lb' := { lb with round_robin_index := idx }
          let r := run_select lb' model k
          (sel :: r.1, r.2)

theorem min_fold_le {α : Type} (key : α → ℕ) :
    ∀ (l : List α) (a x : α), l.foldl (min_step key) (some a) = some x →
      key x ≤ key a ∧ ∀ y ∈ l, key x ≤ key y := by
  intro l
  induction l with
  | nil =>
      intro a x h
      simp only [List.foldl_nil, Option.some.injEq] at h
      subst h
      exact ⟨le_refl _, by simp⟩
  | cons y ys ih =>
      intro a x h
      rw [List.foldl_cons] at h
      by_cases hk : key y < key a
      · rw [show min_step key (some a) y = some y by simp [min_step, hk]] at h
        obtain ⟨h1, h2⟩ := ih y x h
        refine ⟨le_trans h1 (le_of_lt hk), ?_⟩
        intro z hz
        rcases List.mem_cons.mp hz with hz | hz
        · exact hz ▸ h1
        · exact h2 z hz
      · rw [show min_step key (some a) y = some a by simp [min_step, hk]] at h
        obtain ⟨h1, h2⟩ := ih a x h
        refine ⟨h1, ?_⟩
        intro z hz
        rcases List.mem_cons.mp hz with hz | hz
        · exact hz ▸ le_trans h1 (Nat.le_of_not_lt hk)
        · exact h2 z hz

theorem min_fold_mem {α : Type} (key : α → ℕ) :
    ∀ (l : List α) (a x : α), l.foldl (min_step key) (some a) = some x →
      x = a ∨ x ∈ l := by
  intro l
  induction l with
  | nil =>
      intro a x h
      simp only [List.foldl_nil, Option.some.injEq] at h
      exact Or.inl h.symm
  | cons y ys ih =>
      intro a x h
      rw [List.foldl_cons] at h
      by_cases hk : key y < key a
      · rw [show min_step key (some a) y = some y by simp [min_step, hk]] at h
        rcases ih y x h with h' | h'
        · exact Or.inr (h' ▸ List.mem_cons_self y ys)
        · exact Or.inr (List.mem_cons_of_mem y h')
      · rw [show min_step key (some a) y = some a by simp [min_step, hk]] at h
        rcases ih a x h with h' | h'
        · exact Or.inl h'
        · exact Or.inr (List.mem_cons_of_mem y h')

theorem min_fold_some {α : Type} (key : α → ℕ) :
    ∀ (l : List α) (a : α), ∃ x, l.foldl (min_step key) (some a) = some x := by
  intro l
  induction l with
  | nil => intro a; exact ⟨a, rfl⟩
  | cons y ys ih =>
      intro a
      rw [List.foldl_cons]
      by_cases hk : key y < key a
      · rw [show min_step key (some a) y = some y by simp [min_step, hk]]
        exact ih y
      · rw [show min_step key (some a) y = some a by simp [min_step, hk]]
        exact ih a

theorem min_by_key_le {α : Type} (key : α → ℕ) (l : List α) (x : α)
    (h : min_by_key key l = some x) : ∀ y ∈ l, key x ≤ key y := by
  cases l with
  | nil => cases h
  | cons c cs =>
      intro y hy
      have h' : cs.foldl (min_step key) (some c) = some x := h
      obtain ⟨h1, h2⟩ := min_fold_le key cs c x h'
      rcases List.mem_cons.mp hy with hy' | hy'
      · exact hy' ▸ h1
      · exact h2 y hy'

theorem min_by_key_mem {α : Type} (key : α → ℕ) (l : List α) (x : α)
    (h : min_by_key key l = some x) : x ∈ l := by
  cases l with
  | nil => cases h
  | cons c cs =>
      have h' : cs.foldl (min_step key) (some c) = some x := h
      rcases min_fold_mem key cs c x h' with h'' | h''
      · exact h'' ▸ List.mem_cons_self c cs
      · exact List.mem_cons_of_mem c h''

theorem min_by_key_some {α : Type} (key : α → ℕ) (c : α) (cs : List α) :
    ∃ x, min_by_key key (c :: cs) = some x :=
  min_fold_some key cs c

theorem score_cmp_ok_of_finite {x y : LoadBalancerNode × F32}
    (hx : x.2.isFinite = true) (hy : y.2.isFinite = true) :
    ∃ o, score_cmp x y = Except.ok o := by
  have h := F32.pcmp_isSome_of_isFinite hy hx
  cases hc : F32.pcmp y.2 x.2 with
  | none => rw [hc] at h; cases h
  | some o => exact ⟨o, by unfold score_cmp; rw [hc]⟩

theorem insert_sorted_length {x : LoadBalancerNode × F32} :
    ∀ (l l' : List (LoadBalancerNode × F32)), insert_sorted x l = Except.ok l' →
      l'.length = l.length + 1 := by
  intro l
  induction l with
  | nil =>
      intro l' h
      simp only [insert_sorted, Except.ok.injEq] at h
      subst h
      rfl
  | cons y ys ih =>
      intro l' h
      rw [insert_sorted] at h
      split at h
      · cases h
      · split at h
        · cases h
        · rename_i zs hzs
          simp only [Except.ok.injEq] at h
          subst h
          simp [ih zs hzs]
      · simp only [Except.ok.injEq] at h
        subst h
        rfl

theorem insert_sorted_mem {x : LoadBalancerNode × F32} :
    ∀ (l l' : List (LoadBalancerNode × F32)), insert_sorted x l = Except.ok l' →
      ∀ p ∈ l', p = x ∨ p ∈ l := by
  intro l
  induction l with
  | nil =>
      intro l' h p hp
      simp only [insert_sorted, Except.ok.injEq] at h
      subst h
      simp only [List.mem_singleton] at hp
      exact Or.inl hp
  | cons y ys ih =>
      intro l' h p hp
      rw [insert_sorted] at h
      split at h
      · cases h
      · split at h
        · cases h
        · rename_i zs hzs
          simp only [Except.ok.injEq] at h
          subst h
          rcases List.mem_cons.mp hp with hp' | hp'
          · exact Or.inr (hp' ▸ List.mem_cons_self y ys)
          · rcases ih zs hzs p hp' with h' | h'
            · exact Or.inl h'
            · exact Or.inr (List.mem_cons_of_mem y h')
      · simp only [Except.ok.injEq] at h
        subst h
        rcases List.mem_cons.mp hp with hp' | hp'
        · exact Or.inl hp'
        · exact Or.inr hp'

theorem insert_sorted_ok_of_finite {x : LoadBalancerNode × F32}
    (hx : x.2.isFinite = true) :
    ∀ (l : List (LoadBalancerNode × F32)), (∀ p ∈ l, p.2.isFinite = true) →
      ∃ l', insert_sorted x l = Except.ok l' := by
  intro l
  induction l with
  | nil => intro _; exact ⟨[x], rfl⟩
  | cons y ys ih =>
      intro hl
      obtain ⟨o, ho⟩ := score_cmp_ok_of_finite hx (hl y (List.mem_cons_self y ys))
      obtain ⟨zs, hzs⟩ := ih (fun p hp => hl p (List.mem_cons_of_mem y hp))
      rw [insert_sorted, ho]
      cases o with
      | lt => exact ⟨x :: y :: ys, rfl⟩
      | eq => exact ⟨x :: y :: ys, rfl⟩
      | gt => rw [hzs]; exact ⟨y :: zs, rfl⟩

theorem sort_by_score_length :
    ∀ (l l' : List (LoadBalancerNode × F32)), sort_by_score l = Except.ok l' →
      l'.length = l.length := by
  intro l
  induction l with
  | nil =>
      intro l' h
      simp only [sort_by_score, Except.ok.injEq] at h
      subst h
      rfl
  | cons x xs ih =>
      intro l' h
      rw [sort_by_score] at h
      split at h
      · cases h
      · rename_i ys hys
        have := insert_sorted_length ys l' h
        simp [this, ih ys hys]

theorem sort_by_score_mem :
    ∀ (l l' : List (LoadBalancerNode × F32)), sort_by_score l = Except.ok l' →
      ∀ p ∈ l', p ∈ l := by
  intro l
  induction l with
  | nil =>
      intro l' h p hp
      simp only [sort_by_score, Except.ok.injEq] at h
      subst h
      cases hp
  | cons x xs ih =>
      intro l' h p hp
      rw [sort_by_score] at h
      split at h
      · cases h
      · rename_i ys hys
        rcases insert_sorted_mem ys l' h p hp with h' | h'
        · exact h' ▸ List.mem_cons_self x xs
        · exact List.mem_cons_of_mem x (ih ys hys p h')

theorem sort_by_score_ok_of_finite :
    ∀ (l : List (LoadBalancerNode × F32)), (∀ p ∈ l, p.2.isFinite = true) →
      ∃ l', sort_by_score l = Except.ok l' := by
  intro l
  induction l with
  | nil => intro _; exact ⟨[], rfl⟩
  | cons x xs ih =>
      intro hl
      obtain ⟨ys, hys⟩ := ih (fun p hp => hl p (List.mem_cons_of_mem x hp))
      have hys_fin : ∀ p ∈ ys, p.2.isFinite = true := by
        intro p hp
        exact hl p (List.mem_cons_of_mem x (sort_by_score_mem xs ys hys p hp))
      obtain ⟨l', hl'⟩ :=
        insert_sorted_ok_of_finite (hl x (List.mem_cons_self x xs)) ys hys_fin
      rw [sort_by_score, hys]
      exact ⟨l', hl'⟩

theorem isFinite_score {node : LoadBalancerNode} {mi : ModelInfo}
    (hc : node.metrics.cpu_utilization.isFinite = true)
    (hm : node.metrics.memory_utilization.isFinite = true) :
    (calculate_capability_score node mi).isFinite = true := by
  unfold calculate_capability_score
  apply F32.isFinite_sub
  · apply F32.isFinite_sub
    · apply F32.isFinite_sub
      · apply F32.isFinite_add
        · rfl
        · show ((F32.ofNat mi.max_context_length).div (F32.fin 10000)).isFinite = true
          unfold F32.ofNat F32.div
          norm_num [F32.isFinite]
      · exact F32.isFinite_mul hc rfl
    · exact F32.isFinite_mul hm rfl
  · exact F32.isFinite_mul rfl rfl

theorem mem_qualifying {lb : LoadBalancer} {model : String} {n : LoadBalancerNode}
    (h : n ∈ lb.qualifying_nodes model) :
    n.active = true ∧
      n.client.get_supported_models.any (fun m => m.id == model) = true ∧
      n ∈ lb.nodes := by
  unfold LoadBalancer.qualifying_nodes LoadBalancer.get_active_nodes at h
  rw [List.mem_filter] at h
  obtain ⟨h1, h2⟩ := h
  rw [List.mem_filter] at h1
  exact ⟨h1.2, h2, h1.1⟩

theorem scored_nodes_fin {nodes : List LoadBalancerNode} {model : String}
    (hfin : ∀ n ∈ nodes, n.metrics.cpu_utilization.isFinite = true ∧
      n.metrics.memory_utilization.isFinite = true) :
    ∀ p ∈ scored_nodes nodes model, p.2.isFinite = true := by
  intro p hp
  unfold scored_nodes at hp
  rw [List.mem_filterMap] at hp
  obtain ⟨n, hn, hfn⟩ := hp
  rw [Option.map_eq_some'] at hfn
  obtain ⟨mi, _, hpe⟩ := hfn
  subst hpe
  exact isFinite_score (hfin n hn).1 (hfin n hn).2

theorem scored_nodes_fst_mem {nodes : List LoadBalancerNode} {model : String}
    {p : LoadBalancerNode × F32} (hp : p ∈ scored_nodes nodes model) :
    p.1 ∈ nodes := by
  unfold scored_nodes at hp
  rw [List.mem_filterMap] at hp
  obtain ⟨n, hn, hfn⟩ := hp
  rw [Option.map_eq_some'] at hfn
  obtain ⟨mi, _, hpe⟩ := hfn
  subst hpe
  exact hn

theorem scored_nodes_ne_nil {nodes : List LoadBalancerNode} {model : String}
    (hne : nodes ≠ [])
    (hsupp : ∀ n ∈ nodes,
      n.client.get_supported_models.any (fun m => m.id == model) = true) :
    scored_nodes nodes model ≠ [] := by
  cases nodes with
  | nil => exact absurd rfl hne
  | cons c cs =>
      have hany := hsupp c (List.mem_cons_self c cs)
      rw [List.any_eq_true] at hany
      obtain ⟨m, hm, hpm⟩ := hany
      have hs : (c.client.get_supported_models.find?
          (fun m => m.id == model)).isSome = true :=
        List.find?_isSome.mpr ⟨m, hm, hpm⟩
      cases hfind : c.client.get_supported_models.find? (fun m => m.id == model) with
      | none => rw [hfind] at hs; cases hs
      | some mi =>
          unfold scored_nodes
          rw [List.filterMap_cons, hfind]
          simp only [Option.map_some']
          exact List.cons_ne_nil _ _

theorem select_capability_ok_of_finite {nodes : List LoadBalancerNode}
    {model : String}
    (hfin : ∀ n ∈ nodes, n.metrics.cpu_utilization.isFinite = true ∧
      n.metrics.memory_utilization.isFinite = true) :
    ∃ r, select_capability_based nodes model = Except.ok r := by
  unfold select_capability_based
  split
  · exact ⟨none, rfl⟩
  · obtain ⟨l', hl'⟩ :=
      sort_by_score_ok_of_finite (scored_nodes nodes model) (scored_nodes_fin hfin)
    rw [hl']
    exact ⟨_, rfl⟩

theorem select_capability_some {nodes : List LoadBalancerNode} {model : String}
    {sel : Option LoadBalancerNode} (hne : nodes ≠ [])
    (hsupp : ∀ n ∈ nodes,
      n.client.get_supported_models.any (fun m => m.id == model) = true)
    (h : select_capability_based nodes model = Except.ok sel) :
    ∃ node, sel = some node ∧ node ∈ nodes := by
  unfold select_capability_based at h
  rw [if_neg (by simpa [List.length_eq_zero] using hne)] at h
  split at h
  · cases h
  · rename_i sorted hsorted
    have hlen := sort_by_score_length _ _ hsorted
    have hsne : scored_nodes nodes model ≠ [] := scored_nodes_ne_nil hne hsupp
    cases hs : sorted with
    | nil =>
        rw [hs] at hlen
        exact absurd (List.length_eq_zero.mp hlen.symm) hsne
    | cons p ps =>
        rw [hs] at h
        simp only [List.head?_cons, Option.map_some', Except.ok.injEq] at h
        refine ⟨p.1, h.symm, ?_⟩
        exact scored_nodes_fst_mem
          (sort_by_score_mem _ _ hsorted p (hs ▸ List.mem_cons_self p ps))

theorem select_ok_of_finite (lb : LoadBalancer) (model : String)
    (hfin : ∀ n ∈ lb.nodes, n.metrics.cpu_utilization.isFinite = true ∧
      n.metrics.memory_utilization.isFinite = true) :
    ∃ r, select_node_for_model lb model = Except.ok r := by
  unfold select_node_for_model
  split
  · exact ⟨_, rfl⟩
  · split
    · exact ⟨_, rfl⟩
    · cases lb.strategy with
      | RoundRobin => exact ⟨_, rfl⟩
      | LeastLoaded => exact ⟨_, rfl⟩
      | CapabilityBased =>
          obtain ⟨r, hr⟩ := select_capability_ok_of_finite
            (fun n hn => hfin n (mem_qualifying hn).2.2)
          rw [hr]
          exact ⟨_, rfl⟩
      | LatencyBased => exact ⟨_, rfl⟩

theorem active_len_ne_zero {lb : LoadBalancer} {model : String}
    (hne : lb.qualifying_nodes model ≠ []) : lb.get_active_nodes.length ≠ 0 := by
  intro h
  apply hne
  unfold LoadBalancer.qualifying_nodes
  rw [List.length_eq_zero.mp h]
  rfl

theorem rr_select_step (lb : LoadBalancer) (model : String)
    (hstrat : lb.strategy = LoadBalancingStrategy.RoundRobin)
    (hne : lb.qualifying_nodes model ≠ []) :
    select_node_for_model lb model =
      Except.ok ((lb.qualifying_nodes model).get?
          (lb.round_robin_index % (lb.qualifying_nodes model).length),
        (lb.round_robin_index + 1) % (lb.qualifying_nodes model).length) := by
  have hq0 : (lb.qualifying_nodes model).length ≠ 0 := by
    simpa [List.length_eq_zero] using hne
  unfold select_node_for_model
  rw [if_neg (active_len_ne_zero hne), if_neg hq0, hstrat]
  unfold select_round_robin
  rw [dif_neg hq0]
  rw [List.get?_eq_get (Nat.mod_lt _ (Nat.pos_of_ne_zero hq0))]

theorem qualifying_nodes_set_index (lb : LoadBalancer) (i : ℕ) (model : String) :
    LoadBalancer.qualifying_nodes { lb with round_robin_index := i } model =
      lb.qualifying_nodes model := rfl

theorem run_rr (lb : LoadBalancer) (model : String)
    (hstrat : lb.strategy = LoadBalancingStrategy.RoundRobin)
    (hne : lb.qualifying_nodes model ≠ []) :
    ∀ (k i : ℕ),
      (run_select { lb with round_robin_index := i } model k).1 =
        (List.range k).map (fun j =>
          (lb.qualifying_nodes model).get?
            ((i + j) % (lb.qualifying_nodes model).length)) := by
  intro k
  induction k with
  | zero => intro i; simp [run_select]
  | succ k ih =>
      intro i
      have hstep := rr_select_step { lb with round_robin_index := i } model hstrat hne
      rw [qualifying_nodes_set_index] at hstep
      dsimp only at hstep
      rw [run_select, hstep]
      dsimp only
      rw [ih ((i + 1) % (lb.qualifying_nodes model).length)]
      rw [List.range_succ_eq_map]
      rw [List.map_cons, List.map_map]
      congr 1
      apply List.map_congr_left
      intro j hj
      simp only [Function.comp]
      rw [Nat.mod_add_mod]
      have hsw : i + 1 + j = i + Nat.succ j := by omega
      rw [hsw]

theorem range_map_get_eq_rotate (q : List LoadBalancerNode) (i : ℕ) (hne : q ≠ []) :
    (List.range q.length).map (fun j => q.get? ((i + j) % q.length)) =
      (q.rotate i).map some := by
  have hpos : 0 < q.length := List.length_pos.mpr hne
  apply List.ext_getElem
  · simp [List.length_rotate]
  · intro j h1 h2
    simp only [List.getElem_map, List.getElem_range, List.getElem_rotate]
    rw [List.get?_eq_getElem?, List.getElem?_eq_getElem (Nat.mod_lt _ hpos)]
    simp [Nat.add_comm]

theorem run_select_eq_rotate (lb : LoadBalancer) (model : String)
    (hstrat : lb.strategy = LoadBalancingStrategy.RoundRobin)
    (hne : lb.qualifying_nodes model ≠ []) :
    (run_select lb model (lb.qualifying_nodes model).length).1 =
      ((lb.qualifying_nodes model).rotate lb.round_robin_index).map some := by
  have h := run_rr lb model hstrat hne
    (lb.qualifying_nodes model).length lb.round_robin_index
  rw [range_map_get_eq_rotate _ _ hne] at h
  exact h

/-- The initial `NodeMetrics` built by `LocalLlmClient::new` (`local_llm.rs`
lines 103–114), with the wall-clock read for `last_updated` as a parameter. -/
def initial_metrics (now : ℕ) : NodeMetrics :=
  { cpu_utilization := F32.fin 0, memory_utilization := F32.fin 0,
    gpu_utilization := none, requests_per_minute := 0,
    average_response_time_ms := 0, active_requests := 0, last_updated := now }

/-- Capability record of a non-streaming backend, as produced by
`LocalLlmClient::get_capabilities` with `max_concurrent_requests = 1`. -/
def caps_plain : LlmCapabilities :=
  { supports_streaming := false, max_concurrent_requests := 1,
    supports_batching := false, features := [] }

/-- Healthy metrics snapshot with a given number of active requests. -/
def plain_metrics (a : ℕ) : NodeMetrics :=
  { cpu_utilization := F32.fin 0, memory_utilization := F32.fin 0,
    gpu_utilization := none, requests_per_minute := 0,
    average_response_time_ms := 0, active_requests := a, last_updated := 0 }

/-- A model record advertising the model id "m". -/
def model_m : ModelInfo :=
  { id := "m", name := "m", max_context_length := 4096, supports_chat := true,
    supports_text := true, supports_embeddings := false, parameters := [] }

/-- A backend client advertising exactly the model "m". -/
def client_m : LlmClientData :=
  { get_supported_models := [model_m], get_capabilities := caps_plain }

/-- Metrics snapshot in which the backend reported a NaN CPU utilization. -/
def nan_metrics : NodeMetrics :=
  { cpu_utilization := F32.nan, memory_utilization := F32.fin 0,
    gpu_utilization := none, requests_per_minute := 0,
    average_response_time_ms := 0, active_requests := 0, last_updated := 0 }

/-- A capability-based registry with two active nodes supporting "m" whose
CPU metric is NaN: the scores of both nodes are NaN, so the selection sort's
comparator `partial_cmp(..).unwrap()` panics. -/
def nan_lb : LoadBalancer :=
  { strategy := LoadBalancingStrategy.CapabilityBased,
    nodes := [ { id := "n1", client := client_m, metrics := nan_metrics, active := true },
               { id := "n2", client := client_m, metrics := nan_metrics, active := true } ],
    round_robin_index := 0 }

/-- A capability-based registry with two active nodes with finite metrics. -/
def cap_lb : LoadBalancer :=
  { strategy := LoadBalancingStrategy.CapabilityBased,
    nodes := [ { id := "n1", client := client_m, metrics := plain_metrics 1, active := true },
               { id := "n2", client := client_m, metrics := plain_metrics 0, active := true } ],
    round_robin_index := 0 }

/-- First node of the round-robin example registry. -/
def rr_node_a : LoadBalancerNode :=
  { id := "a", client := client_m, metrics := plain_metrics 0, active := true }

/-- Second node of the round-robin example registry. -/
def rr_node_b : LoadBalancerNode :=
  { id := "b", client := client_m, metrics := plain_metrics 3, active := true }

/-- A round-robin registry with two active nodes supporting "m". -/
def rr_lb : LoadBalancer :=
  { strategy := LoadBalancingStrategy.RoundRobin,
    nodes := [rr_node_a, rr_node_b],
    round_robin_index := 0 }

/-- Heavily loaded node of the least-loaded example registry. -/
def ll_node_hi : LoadBalancerNode :=
  { id := "hi", client := client_m, metrics := plain_metrics 5, active := true }

/-- Lightly loaded node of the least-loaded example registry. -/
def ll_node_lo : LoadBalancerNode :=
  { id := "lo", client := client_m, metrics := plain_metrics 2, active := true }

/-- A least-loaded registry with two active nodes supporting "m". -/
def ll_lb : LoadBalancer :=
  { strategy := LoadBalancingStrategy.LeastLoaded,
    nodes := [ll_node_hi, ll_node_lo],
    round_robin_index := 0 }

/-- A model record advertising the model id "x". -/
def model_x : ModelInfo :=
  { id := "x", name := "x", max_context_length := 4096, supports_chat := true,
    supports_text := true, supports_embeddings := false, parameters := [] }

/-- A model record advertising the model id "y". -/
def model_y : ModelInfo :=
  { id := "y", name := "y", max_context_length := 4096, supports_chat := true,
    supports_text := true, supports_embeddings := false, parameters := [] }

/-- Node A of the spec's scenario pool: supports model "x" only. -/
def node_a : LoadBalancerNode :=
  { id := "A",
    client := { get_supported_models := [model_x], get_capabilities := caps_plain },
    metrics := plain_metrics 0, active := true }

/-- Node B of the spec's scenario pool: supports model "y" only. -/
def node_b : LoadBalancerNode :=
  { id := "B",
    client := { get_supported_models := [model_y], get_capabilities := caps_plain },
    metrics := plain_metrics 0, active := true }

/-- The scenario pool {A, B} under the default (round-robin) strategy. -/
def pool_ab : LoadBalancer :=
  { strategy := LoadBalancingStrategy.RoundRobin,
    nodes := [node_a, node_b],
    round_robin_index := 0 }

/-- The single chunk of the specified single-chunk stream: one choice with
delta role "assistant" and delta content "Hi". -/
def single_hi_chunk : ChatCompletionChunk :=
  { id := "chunk-1", object := "chat.completion.chunk", created := 0,
    model := "test-model",
    choices := [ { index := 0,
                   delta := { role := some ("assistant"), content := some ("Hi") },
                   finish_reason := none } ] }

/-- An embeddings request for the default config's "gpt-3.5-turbo", a model
whose `supports_embeddings` flag is `false`. -/
def emb_req_gpt : EmbeddingRequest :=
  { model := "gpt-3.5-turbo", input := ["hello"], additional_params := [] }

/-- Chat request for a model no client advertises. -/
def chat_req_nope : ChatCompletionRequest :=
  { model := "nope", messages := [], max_tokens := none, temperature := none,
    top_p := none, stream := none, additional_params := [] }

/-- Text request for a model no client advertises. -/
def text_req_nope : TextCompletionRequest :=
  { model := "nope", prompt := "p", max_tokens := none, temperature := none,
    top_p := none, stream := none, additional_params := [] }

/-- Embeddings request for a model no client advertises. -/
def emb_req_nope : EmbeddingRequest :=
  { model := "nope", input := [], additional_params := [] }

/-- An Ollama client configured for the model "llama2". -/
def ollama_example : OllamaLlmClient :=
  { api_url := "http://localhost:11434", model := "llama2" }

/-- Embeddings request for a model the Ollama example client never lists. -/
def emb_req_z : EmbeddingRequest :=
  { model := "some-model", input := [], additional_params := [] }

/-- Capability record of a client that advertises streaming support. -/
def caps_with_streaming : LlmCapabilities :=
  { supports_streaming := true, max_concurrent_requests := 1,
    supports_batching := false, features := [] }

/-- A client whose capability flag claims streaming support. -/
def streaming_flagged_client : LlmClientData :=
  { get_supported_models := [], get_capabilities := caps_with_streaming }

/-- Claim C1: the specified behaviour — `collect_chat_completion_stream` on a
single-chunk stream whose only choice carries delta role "assistant" and
delta content "Hi" returns one choice with message content "Hi" — does not
hold on the code. The collector reads only the role and finish reason from
the first chunk and never its `delta.content`, so the collected message
content is `""` (the role is "assistant" and there is exactly one choice, as
specified). This theorem evaluates the embedded collector at exactly that
input, for every wall-clock value. -/
theorem collect_chat_single_chunk_drops_first_content :
    ∀ now : ℕ, collect_chat_completion_stream now [Except.ok single_hi_chunk] =
      Except.ok
        { id := "stream-collected", object := "chat.completion", created := now,
          model := "unknown",
          choices := [ { index := 0,
                         message := { role := "assistant", content := "", name := none },
                         finish_reason := none } ],
          usage := none } :=
  fun _ => rfl

/-- Claim C2: the spec requires a backend without embeddings support to fail
with `NotImplemented`, but `LocalLlmClient::embeddings` returns a mock
success for any configured model: for the default config's "gpt-3.5-turbo",
whose `supports_embeddings` flag is `false`, the call succeeds with an empty
embedding list instead of failing with `NotImplemented` (which the `LlmError`
enum in `llm/mod.rs` does not even define). -/
theorem local_embeddings_mock_success :
    ((LocalLlmConfig.default.models.find? (fun m => m.id == "gpt-3.5-turbo")).map
        (fun m => m.supports_embeddings)) = some false ∧
    (LocalLlmClient.embeddings LocalLlmConfig.default (initial_metrics 0) 5
        emb_req_gpt).1 =
      Except.ok { object := "list", model := "gpt-3.5-turbo", data := [], usage := none } :=
  ⟨rfl, rfl⟩

/-- Claim C3: `as_streaming` returns `none` for every client, whatever its
capabilities; in particular there is a client whose capability record claims
`supports_streaming = true` and whose `as_streaming` is still `none`. -/
theorem as_streaming_always_none :
    (∀ c : LlmClientData, LlmClientExt.as_streaming c = none) ∧
    (∃ c : LlmClientData, LlmClientExt.supports_streaming c = true ∧
      LlmClientExt.as_streaming c = none) := by
  constructor
  · intro c
    unfold LlmClientExt.as_streaming
    split <;> rfl
  · exact ⟨streaming_flagged_client, rfl, rfl⟩

/-- Claim C5 counterexample: the collectors do fail on the empty stream with
`RequestFailed`, but the carried message is "Empty stream" (capital E), not
the "empty stream" stated by the claim. -/
theorem empty_stream_message_is_capitalized :
    collect_chat_completion_stream 0 [] =
      Except.error (LlmError.RequestFailed ("Empty stream")) ∧
    collect_chat_completion_stream 0 [] ≠
      Except.error (LlmError.RequestFailed ("empty stream")) ∧
    collect_text_completion_stream 0 [] ≠
      Except.error (LlmError.RequestFailed ("empty stream")) := by
  refine ⟨rfl, ?_, ?_⟩ <;> decide

/-- Claim C5 (amended): applied to an empty stream, both
`collect_chat_completion_stream` and `collect_text_completion_stream` fail
with `RequestFailed("Empty stream")`. -/
theorem collect_empty_stream_fails :
    ∀ now : ℕ,
      collect_chat_completion_stream now [] =
        Except.error (LlmError.RequestFailed ("Empty stream")) ∧
      collect_text_completion_stream now [] =
        Except.error (LlmError.RequestFailed ("Empty stream")) :=
  fun _ => ⟨rfl, rfl⟩

/-- Claim C4 counterexample: `select_node_for_model` under the
CapabilityBased strategy is not total for every combination of node metrics —
with two active nodes supporting the requested model whose reported CPU
utilization is NaN, both capability scores are NaN, the sort comparator's
`partial_cmp(..).unwrap()` finds the pair incomparable, and the call panics
(modelled as `Except.error ()`). -/
theorem select_capability_panics_on_nan :
    select_node_for_model nan_lb ("m") = Except.error () := by decide

/-- Claim C4 (amended): `select_node_for_model` never panics — under the
CapabilityBased strategy included — provided every node's CPU and memory
utilization metrics are finite (neither NaN nor infinite); the other three
strategies are unconditionally panic-free. -/
theorem select_total_on_finite_metrics :
    ∀ (lb : LoadBalancer) (model : String),
      (∀ n ∈ lb.nodes, n.metrics.cpu_utilization.isFinite = true ∧
        n.metrics.memory_utilization.isFinite = true) →
      ∃ r, select_node_for_model lb model = Except.ok r :=
  fun lb model h => select_ok_of_finite lb model h

theorem select_total_on_finite_metrics_witness :
    (∀ n ∈ cap_lb.nodes, n.metrics.cpu_utilization.isFinite = true ∧
      n.metrics.memory_utilization.isFinite = true) ∧
    (∃ r, select_node_for_model cap_lb ("m") = Except.ok r) :=
  ⟨by decide, select_total_on_finite_metrics cap_lb ("m") (by decide)⟩

theorem count_some_map (l : List LoadBalancerNode) (node : LoadBalancerNode) :
    List.count (some node) (l.map some) = l.count node := by
  induction l with
  | nil => rfl
  | cons x xs ih => simp [List.count_cons, ih]

/-- Claim C6: with the registry unchanged during the cycle, `n` consecutive
calls to `select_node_for_model` under RoundRobin — where `n` is the number
of distinct active nodes supporting the model — select every qualifying node
exactly once (count 1 in the list of selections), whatever the starting
cursor. -/
theorem round_robin_cycle_each_node_once (lb : LoadBalancer) (model : String)
    (hstrat : lb.strategy = LoadBalancingStrategy.RoundRobin)
    (hne : lb.qualifying_nodes model ≠ [])
    (hnd : (lb.qualifying_nodes model).Nodup) :
    ∀ node ∈ lb.qualifying_nodes model,
      ((run_select lb model (lb.qualifying_nodes model).length).1.count (some node)) = 1 := by
  intro node hmem
  rw [run_select_eq_rotate lb model hstrat hne]
  rw [count_some_map]
  rw [(List.rotate_perm (lb.qualifying_nodes model) lb.round_robin_index).count_eq node]
  exact List.count_eq_one_of_mem hnd hmem

theorem round_robin_cycle_witness :
    rr_lb.strategy = LoadBalancingStrategy.RoundRobin ∧
    rr_node_a ∈ rr_lb.qualifying_nodes ("m") ∧
    ((run_select rr_lb ("m") (rr_lb.qualifying_nodes ("m")).length).1.count
      (some rr_node_a)) = 1 :=
  ⟨rfl, by decide,
   round_robin_cycle_each_node_once rr_lb ("m") rfl (by decide) (by decide)
     rr_node_a (by decide)⟩

/-- Claim C7: whenever `select_node_for_model` under the LeastLoaded strategy
returns a node, that node's `active_requests` is less than or equal to the
`active_requests` of every active node supporting the requested model. -/
theorem least_loaded_minimizes_active_requests (lb : LoadBalancer) (model : String)
    (node : LoadBalancerNode) (i : ℕ)
    (hstrat : lb.strategy = LoadBalancingStrategy.LeastLoaded)
    (h : select_node_for_model lb model = Except.ok (some node, i)) :
    ∀ m ∈ lb.qualifying_nodes model,
      node.metrics.active_requests ≤ m.metrics.active_requests := by
  unfold select_node_for_model at h
  split at h
  · simp at h
  · split at h
    · simp at h
    · rename_i h1 h2
      rw [hstrat] at h
      dsimp only at h
      simp only [Except.ok.injEq, Prod.mk.injEq] at h
      obtain ⟨hsel, _⟩ := h
      unfold select_least_loaded at hsel
      rw [if_neg h2] at hsel
      exact min_by_key_le _ _ _ hsel

theorem least_loaded_witness :
    select_node_for_model ll_lb ("m") = Except.ok (some ll_node_lo, 0) ∧
    (∀ m ∈ ll_lb.qualifying_nodes ("m"),
      ll_node_lo.metrics.active_requests ≤ m.metrics.active_requests) :=
  ⟨by decide,
   least_loaded_minimizes_active_requests ll_lb ("m") ll_node_lo 0 rfl (by decide)⟩

/-- Claim C8: for every registry state and model, `select_node_for_model`
returns no node exactly when no active node's supported-model list contains
the model, and any node it does return is active and supports the model
(whatever the configured strategy). The spec's scenario pool instance is
checked in the witness. -/
theorem select_none_iff_no_support (lb : LoadBalancer) (model : String) :
    (select_node_for_model lb model = Except.ok (none, lb.round_robin_index) ↔
      lb.qualifying_nodes model = []) ∧
    (∀ node i, select_node_for_model lb model = Except.ok (some node, i) →
      node.active = true ∧
        node.client.get_supported_models.any (fun m => m.id == model) = true) := by
  constructor
  · constructor
    · intro h
      by_contra hne
      have hq0 : (lb.qualifying_nodes model).length ≠ 0 := by
        simpa [List.length_eq_zero] using hne
      unfold select_node_for_model at h
      rw [if_neg (active_len_ne_zero hne), if_neg hq0] at h
      cases hst : lb.strategy
      all_goals (rw [hst] at h; dsimp only at h)
      case RoundRobin =>
        unfold select_round_robin at h
        rw [dif_neg hq0] at h
        simp at h
      case LeastLoaded =>
        cases hq : lb.qualifying_nodes model with
        | nil => exact hne hq
        | cons c cs =>
            obtain ⟨x, hx⟩ := min_by_key_some (fun n => n.metrics.active_requests) c cs
            rw [hq] at h
            unfold select_least_loaded at h
            rw [if_neg (by simp), hx] at h
            simp at h
      case CapabilityBased =>
        split at h
        · cases h
        · rename_i sel hsel
          obtain ⟨nd, hnd, _⟩ := select_capability_some hne
            (fun n hn => (mem_qualifying hn).2.1) hsel
          rw [hnd] at h
          simp at h
      case LatencyBased =>
        cases hq : lb.qualifying_nodes model with
        | nil => exact hne hq
        | cons c cs =>
            obtain ⟨x, hx⟩ :=
              min_by_key_some (fun n => n.metrics.average_response_time_ms) c cs
            rw [hq] at h
            unfold select_latency_based at h
            rw [if_neg (by simp), hx] at h
            simp at h
    · intro hq
      unfold select_node_for_model
      by_cases ha : lb.get_active_nodes.length = 0
      · rw [if_pos ha]
      · rw [if_neg ha, if_pos (by simp [hq])]
  · intro node i h
    unfold select_node_for_model at h
    split at h
    · simp at h
    · split at h
      · simp at h
      · rename_i h1 h2
        have hne : lb.qualifying_nodes model ≠ [] := by
          intro hnil
          exact h2 (by simp [hnil])
        have hmem : node ∈ lb.qualifying_nodes model := by
          cases hst : lb.strategy
          all_goals (rw [hst] at h; dsimp only at h)
          case RoundRobin =>
            unfold select_round_robin at h
            rw [dif_neg h2] at h
            simp only [Except.ok.injEq, Prod.mk.injEq, Option.some.injEq] at h
            rw [← h.1]
            exact List.get_mem _ _ _
          case LeastLoaded =>
            simp only [Except.ok.injEq, Prod.mk.injEq] at h
            obtain ⟨hsel, _⟩ := h
            unfold select_least_loaded at hsel
            rw [if_neg h2] at hsel
            exact min_by_key_mem _ _ _ hsel
          case CapabilityBased =>
            split at h
            · cases h
            · rename_i sel hsel
              obtain ⟨nd, hnd, hmem'⟩ := select_capability_some hne
                (fun n hn => (mem_qualifying hn).2.1) hsel
              rw [hnd] at h
              simp only [Except.ok.injEq, Prod.mk.injEq, Option.some.injEq] at h
              exact h.1 ▸ hmem'
          case LatencyBased =>
            simp only [Except.ok.injEq, Prod.mk.injEq] at h
            obtain ⟨hsel, _⟩ := h
            unfold select_latency_based at hsel
            rw [if_neg h2] at hsel
            exact min_by_key_mem _ _ _ hsel
        exact ⟨(mem_qualifying hmem).1, (mem_qualifying hmem).2.1⟩

theorem select_none_iff_no_support_witness :
    select_node_for_model pool_ab ("z") = Except.ok (none, 0) ∧
    (node_a.active = true ∧
      node_a.client.get_supported_models.any (fun m => m.id == "x") = true) ∧
    select_node_for_model pool_ab ("x") = Except.ok (some node_a, 0) ∧
    select_node_for_model pool_ab ("y") = Except.ok (some node_b, 0) :=
  ⟨(select_none_iff_no_support pool_ab ("z")).1.mpr (by decide),
   (select_none_iff_no_support pool_ab ("x")).2 node_a 0 (by decide),
   by decide, by decide⟩

/-- Claim C9 counterexample: the claim quantifies over every client, but the
Ollama blueprint client's `embeddings` never checks the request's model
against its supported-model list: with the availability probe failing (empty
supported list, so the requested model is certainly absent) it fails with
`NotImplemented`, not with `ModelNotSupported(request.model)`. -/
theorem ollama_embeddings_skips_model_check :
    ((OllamaLlmClient.get_supported_models ollama_example false).any
        (fun m => m.id == emb_req_z.model)) = false ∧
    OllamaLlmClient.embeddings ollama_example emb_req_z =
      Except.error
        (LlmError.NotImplemented ("Ollama embeddings not implemented in this example")) ∧
    OllamaLlmClient.embeddings ollama_example emb_req_z ≠
      Except.error (LlmError.ModelNotSupported (emb_req_z.model)) := by
  refine ⟨rfl, rfl, ?_⟩
  decide

/-- Claim C9 (amended): for the `LocalLlmClient`, each of `chat_completion`,
`text_completion` and `embeddings` fails with `ModelNotSupported(r.model)`
whenever the request's model is absent from the client's configured
supported-model list. -/
theorem local_client_model_not_supported (config : LocalLlmConfig)
    (metrics : NodeMetrics) (uuid : String) (now duration_ms : ℕ)
    (rc : ChatCompletionRequest) (rt : TextCompletionRequest)
    (re : EmbeddingRequest) :
    (config.models.any (fun m => m.id == rc.model) = false →
      (LocalLlmClient.chat_completion config metrics uuid now duration_ms rc).1 =
        Except.error (LlmError.ModelNotSupported rc.model)) ∧
    (config.models.any (fun m => m.id == rt.model) = false →
      (LocalLlmClient.text_completion config metrics uuid now duration_ms rt).1 =
        Except.error (LlmError.ModelNotSupported rt.model)) ∧
    (config.models.any (fun m => m.id == re.model) = false →
      (LocalLlmClient.embeddings config metrics duration_ms re).1 =
        Except.error (LlmError.ModelNotSupported re.model)) := by
  refine ⟨fun h => ?_, fun h => ?_, fun h => ?_⟩
  · unfold LocalLlmClient.chat_completion
    rw [if_pos (by simp [h])]
  · unfold LocalLlmClient.text_completion
    rw [if_pos (by simp [h])]
  · unfold LocalLlmClient.embeddings
    rw [if_pos (by simp [h])]

theorem local_client_model_not_supported_witness :
    (LocalLlmConfig.default.models.any (fun m => m.id == "nope")) = false ∧
    (LocalLlmClient.chat_completion LocalLlmConfig.default (initial_metrics 0)
        ("u") 0 0 chat_req_nope).1 =
      Except.error (LlmError.ModelNotSupported ("nope")) :=
  ⟨by decide,
   (local_client_model_not_supported LocalLlmConfig.default (initial_metrics 0)
      ("u") 0 0 chat_req_nope text_req_nope emb_req_nope).1 (by decide)⟩

/-- Claim C10: when a `LocalLlmClient` call returns the `ModelNotSupported`
error (indeed any error), the client's `NodeMetrics` are completely
unchanged: the model check precedes `record_request_start`, so no
`active_requests` increment, no `average_response_time_ms` update and no
`requests_per_minute` increment happens. -/
theorem local_client_error_leaves_metrics_unchanged (config : LocalLlmConfig)
    (metrics : NodeMetrics) (uuid : String) (now duration_ms : ℕ)
    (rc : ChatCompletionRequest) (rt : TextCompletionRequest)
    (re : EmbeddingRequest) :
    (∀ e m2, LocalLlmClient.chat_completion config metrics uuid now duration_ms rc =
      (Except.error e, m2) → m2 = metrics) ∧
    (∀ e m2, LocalLlmClient.text_completion config metrics uuid now duration_ms rt =
      (Except.error e, m2) → m2 = metrics) ∧
    (∀ e m2, LocalLlmClient.embeddings config metrics duration_ms re =
      (Except.error e, m2) → m2 = metrics) := by
  refine ⟨fun e m2 h => ?_, fun e m2 h => ?_, fun e m2 h => ?_⟩
  · unfold LocalLlmClient.chat_completion at h
    split at h
    all_goals simp only [Prod.mk.injEq] at h
    · exact h.2.symm
    · exact absurd h.1 (by simp)
  · unfold LocalLlmClient.text_completion at h
    split at h
    all_goals simp only [Prod.mk.injEq] at h
    · exact h.2.symm
    · exact absurd h.1 (by simp)
  · unfold LocalLlmClient.embeddings at h
    split at h
    all_goals simp only [Prod.mk.injEq] at h
    · exact h.2.symm
    · exact absurd h.1 (by simp)

theorem local_client_error_leaves_metrics_unchanged_witness :
    LocalLlmClient.embeddings LocalLlmConfig.default (initial_metrics 0) 5 emb_req_nope =
      (Except.error (LlmError.ModelNotSupported ("nope")), initial_metrics 0) ∧
    initial_metrics 0 = initial_metrics 0 :=
  ⟨by decide,
   (local_client_error_leaves_metrics_unchanged LocalLlmConfig.default
      (initial_metrics 0) ("u") 0 5 chat_req_nope text_req_nope emb_req_nope).2.2
     (LlmError.ModelNotSupported ("nope")) (initial_metrics 0) (by decide)⟩
